import Mathlib

/-!
Shallow embedding of the Carapace STUN / signaling server.

Bytes are modelled as `Nat` (values below 256 on the wire), byte buffers
as `List Nat`, and Rust `HashMap`s as association lists with
last-write-wins insertion.  Fallible Rust functions return `Except`,
and the one panicking call site (`copy_from_slice` with a mismatched
slice length inside `StunResponse::binding_response`) is modelled by an
`Option` result, `none` standing for the panic.
-/

namespace Carapace

/-- Decidable equality for `Except`, needed to evaluate results of the
fallible functions on concrete inputs. -/
instance {ε α : Type} [DecidableEq ε] [DecidableEq α] : DecidableEq (Except ε α) :=
  fun a b =>
  match a, b with
  | .error e, .error f =>
    if h : e = f then .isTrue (by rw [h])
    else .isFalse (fun c => h (by cases c; rfl))
  | .ok x, .ok y =>
    if h : x = y then .isTrue (by rw [h])
    else .isFalse (fun c => h (by cases c; rfl))
  | .error _, .ok _ => .isFalse (fun c => by cases c)
  | .ok _, .error _ => .isFalse (fun c => by cases c)

/-! ### Byte helpers (models of `u16::from_be_bytes` and friends) -/

/-- Model of `u16::from_be_bytes([b0, b1])`. -/
def u16_from_be (b0 b1 : Nat) : Nat := 256 * b0 + b1

/-- Model of `u32::from_be_bytes([b0, b1, b2, b3])`. -/
def u32_from_be (b0 b1 b2 b3 : Nat) : Nat :=
  256 * (256 * (256 * b0 + b1) + b2) + b3

/-- Model of `u16::to_be_bytes` (the value of a `u16` is below 2 ^ 16). -/
def u16_to_be_bytes (v : Nat) : List Nat := [v / 256 % 256, v % 256]

/-- Model of `u32::to_be_bytes`. -/
def u32_to_be_bytes (v : Nat) : List Nat :=
  [v / 16777216 % 256, v / 65536 % 256, v / 256 % 256, v % 256]

/-! ### STUN protocol (`src/protocol.rs`) -/

/-- STUN magic cookie constant (`MAGIC_COOKIE`). -/
def MAGIC_COOKIE : Nat := 0x2112A442

/-- STUN header size in bytes (`HEADER_SIZE`). -/
def HEADER_SIZE : Nat := 20

/-- Binding response size (`BINDING_RESPONSE_SIZE`). -/
def BINDING_RESPONSE_SIZE : Nat := 32

/-- STUN message types (`MessageType`). -/
inductive MessageType
  | BindingRequest
  | BindingResponse
  | BindingErrorResponse
  deriving DecidableEq

/-- Model of `MessageType::from_u16`. -/
def MessageType.from_u16 (value : Nat) : Option MessageType :=
  if value = 0x0001 then some .BindingRequest
  else if value = 0x0101 then some .BindingResponse
  else if value = 0x0111 then some .BindingErrorResponse
  else none

/-- Model of `MessageType::to_u16`. -/
def MessageType.to_u16 : MessageType → Nat
  | .BindingRequest => 0x0001
  | .BindingResponse => 0x0101
  | .BindingErrorResponse => 0x0111

/-- STUN protocol errors (`StunError`). -/
inductive StunError
  | MessageTooShort (expected actual : Nat)
  | InvalidMagicCookie (expected actual : Nat)
  | UnknownMessageType (value : Nat)
  | UnsupportedMessageType (t : MessageType)
  | Ipv6NotSupported
  deriving DecidableEq

/-- A parsed STUN request (`StunRequest`). -/
structure StunRequest where
  msg_type : MessageType
  transaction_id : List Nat
  deriving DecidableEq

/-- Model of `StunRequest::parse`.  Out-of-range reads cannot occur: every
`getD` is guarded by the length check, exactly as in the source. -/
def StunRequest.parse (d : List Nat) : Except StunError StunRequest :=
  if d.length < HEADER_SIZE then
    .error (.MessageTooShort HEADER_SIZE d.length)
  else
    let msg_type_raw := u16_from_be (d.getD 0 0) (d.getD 1 0)
    match MessageType.from_u16 msg_type_raw with
    | none => .error (.UnknownMessageType msg_type_raw)
    | some msg_type =>
      let cookie := u32_from_be (d.getD 4 0) (d.getD 5 0) (d.getD 6 0) (d.getD 7 0)
      if cookie ≠ MAGIC_COOKIE then
        .error (.InvalidMagicCookie MAGIC_COOKIE cookie)
      else
        .ok { msg_type := msg_type, transaction_id := (d.drop 8).take 12 }

/-- Model of `StunRequest::is_binding_request`. -/
def StunRequest.is_binding_request (r : StunRequest) : Bool :=
  r.msg_type = MessageType.BindingRequest

/-- An IPv4 address as its four octets (`Ipv4Addr::octets`). -/
structure Ipv4Addr where
  o0 : Nat
  o1 : Nat
  o2 : Nat
  o3 : Nat
  deriving DecidableEq

/-- Model of `SocketAddrV4`. -/
structure SocketAddrV4 where
  ip : Ipv4Addr
  port : Nat
  deriving DecidableEq

/-- Model of `SocketAddr`; the IPv6 payload is irrelevant to the server
and kept opaque. -/
inductive SocketAddr
  | v4 (a : SocketAddrV4)
  | v6 (payload : List Nat)
  deriving DecidableEq

/-- The 32-byte buffer written by `StunResponse::binding_response`,
assuming the `copy_from_slice` of the transaction id succeeds. -/
def binding_response_bytes (transaction_id : List Nat) (client_addr : SocketAddrV4) :
    List Nat :=
  let magic_bytes := u32_to_be_bytes MAGIC_COOKIE
  let xor_port := client_addr.port ^^^ (MAGIC_COOKIE >>> 16)
  [0x01, 0x01, 0x00, 0x0C] ++ magic_bytes ++ transaction_id
    ++ [0x00, 0x20, 0x00, 0x08, 0x00, 0x01]
    ++ u16_to_be_bytes xor_port
    ++ [client_addr.ip.o0 ^^^ magic_bytes.getD 0 0,
        client_addr.ip.o1 ^^^ magic_bytes.getD 1 0,
        client_addr.ip.o2 ^^^ magic_bytes.getD 2 0,
        client_addr.ip.o3 ^^^ magic_bytes.getD 3 0]

/-- Model of `StunResponse::binding_response`.  The Rust
`buffer[8..20].copy_from_slice(transaction_id)` panics when the slice is
not exactly 12 bytes; the panic is modelled as `none`. -/
def StunResponse.binding_response (transaction_id : List Nat)
    (client_addr : SocketAddrV4) : Option (List Nat) :=
  if transaction_id.length = 12 then
    some (binding_response_bytes transaction_id client_addr)
  else
    none

/-- Modelled from the spec: the repository ships no XOR-MAPPED-ADDRESS
decoder, only the builder, so the decoding direction of §3 and §8 is
written out from the words of the spec: the port is the big-endian
16-bit value at offsets 26..28 XORed with the upper 16 bits of the
magic cookie, and the address octets are the bytes at offsets 28..32
XORed positionally with the four big-endian magic-cookie bytes. -/
def decode_xor_mapped_address (resp : List Nat) : Nat × Ipv4Addr :=
  (u16_from_be (resp.getD 26 0) (resp.getD 27 0) ^^^ (MAGIC_COOKIE >>> 16),
   ⟨resp.getD 28 0 ^^^ 0x21, resp.getD 29 0 ^^^ 0x12,
    resp.getD 30 0 ^^^ 0xA4, resp.getD 31 0 ^^^ 0x42⟩)

/-! ### STUN server (`src/server.rs`) -/

/-- The error type of `handle_request`.  In the source the function
returns `Result<usize, &'static str>` and builds its own rejections from
string literals; parse errors are propagated by `?` through a
conversion whose definition is outside the provided sources, so the
propagated `StunError` is kept structured here. -/
inductive HandleError
  | stun (e : StunError)
  | text (s : String)
  deriving DecidableEq

/-- Model of `handle_request`.  The outer `Option` tracks the panic
hidden inside `StunResponse::binding_response`: `none` means the call
panicked, `some r` that it returned `r`. -/
def handle_request (data : List Nat) (client_addr : SocketAddr) :
    Option (Except HandleError Nat) :=
  match StunRequest.parse data with
  | .error e => some (.error (.stun e))
  | .ok request =>
    if request.is_binding_request = false then
      some (.error (.text ("Not a binding request")))
    else
      match client_addr with
      | .v6 _ => some (.error (.text ("IPv6 not supported")))
      | .v4 addr_v4 =>
        match StunResponse.binding_response request.transaction_id addr_v4 with
        | none => none
        | some _ => some (.ok BINDING_RESPONSE_SIZE)

/-! ### Signaling types (`src/signaling/types.rs`) -/

/-- UTF-8 bytes of a string; all literals used here are ASCII, where the
code points are the bytes. -/
def strBytes (s : String) : List Nat := s.data.map Char.toNat

/-- The fixed room-code width (`ROOM_CODE_LEN`). -/
def ROOM_CODE_LEN : Nat := 8

/-- Model of `RoomCode`: an 8-byte buffer together with the number of
meaningful bytes.  Derived equality compares both fields, like the
derived `PartialEq` in the source. -/
structure RoomCode where
  bytes : List Nat
  len : Nat
  deriving DecidableEq

/-- Model of `impl From<&str> for RoomCode`: the buffer starts zeroed
and the first `min (length src) 8` bytes of the source are copied in. -/
def RoomCode.fromBytes (src : List Nat) : RoomCode :=
  let len := min src.length ROOM_CODE_LEN
  { bytes := src.take len ++ List.replicate (ROOM_CODE_LEN - len) 0, len := len }

/-- Validity of a byte sequence as UTF-8, as checked by
`std::str::from_utf8` (RFC 3629: continuation bytes in 0x80..0xBF, no
overlong encodings, no surrogates, nothing above U+10FFFF). -/
def isValidUtf8 : List Nat → Bool
  | [] => true
  | b :: rest =>
    if b ≤ 0x7F then isValidUtf8 rest
    else if 0xC2 ≤ b ∧ b ≤ 0xDF then
      match rest with
      | c1 :: rest2 => if 0x80 ≤ c1 ∧ c1 ≤ 0xBF then isValidUtf8 rest2 else false
      | [] => false
    else if b = 0xE0 then
      match rest with
      | c1 :: c2 :: rest2 =>
        if (0xA0 ≤ c1 ∧ c1 ≤ 0xBF) ∧ (0x80 ≤ c2 ∧ c2 ≤ 0xBF) then isValidUtf8 rest2
        else false
      | _ => false
    else if (0xE1 ≤ b ∧ b ≤ 0xEC) ∨ (0xEE ≤ b ∧ b ≤ 0xEF) then
      match rest with
      | c1 :: c2 :: rest2 =>
        if (0x80 ≤ c1 ∧ c1 ≤ 0xBF) ∧ (0x80 ≤ c2 ∧ c2 ≤ 0xBF) then isValidUtf8 rest2
        else false
      | _ => false
    else if b = 0xED then
      match rest with
      | c1 :: c2 :: rest2 =>
        if (0x80 ≤ c1 ∧ c1 ≤ 0x9F) ∧ (0x80 ≤ c2 ∧ c2 ≤ 0xBF) then isValidUtf8 rest2
        else false
      | _ => false
    else if b = 0xF0 then
      match rest with
      | c1 :: c2 :: c3 :: rest2 =>
        if (0x90 ≤ c1 ∧ c1 ≤ 0xBF) ∧ (0x80 ≤ c2 ∧ c2 ≤ 0xBF) ∧ (0x80 ≤ c3 ∧ c3 ≤ 0xBF) then
          isValidUtf8 rest2
        else false
      | _ => false
    else if 0xF1 ≤ b ∧ b ≤ 0xF3 then
      match rest with
      | c1 :: c2 :: c3 :: rest2 =>
        if (0x80 ≤ c1 ∧ c1 ≤ 0xBF) ∧ (0x80 ≤ c2 ∧ c2 ≤ 0xBF) ∧ (0x80 ≤ c3 ∧ c3 ≤ 0xBF) then
          isValidUtf8 rest2
        else false
      | _ => false
    else if b = 0xF4 then
      match rest with
      | c1 :: c2 :: c3 :: rest2 =>
        if (0x80 ≤ c1 ∧ c1 ≤ 0x8F) ∧ (0x80 ≤ c2 ∧ c2 ≤ 0xBF) ∧ (0x80 ≤ c3 ∧ c3 ≤ 0xBF) then
          isValidUtf8 rest2
        else false
      | _ => false
    else false

/-- Model of `RoomCode::as_str`: the first `len` bytes when they form
valid UTF-8, and the empty string otherwise — the source is
`str::from_utf8(&bytes[..len]).unwrap_or("")`. -/
def RoomCode.render (c : RoomCode) : List Nat :=
  if isValidUtf8 (c.bytes.take c.len) then c.bytes.take c.len else []

/-- Peer identifiers are opaque keys for the actor claims; the 13-byte
`"peer_"`-prefixed structure plays no role in them. -/
abbrev PeerId := Nat

/-- Model of `PeerInfo`. -/
structure PeerInfo where
  id : PeerId
  public_addr : Option SocketAddr
  deriving DecidableEq

/-- Model of `PeerState`.  The outbound channel `tx` is identified with
the peer that owns it: a send on `tx` is recorded as a send addressed to
that peer id. -/
structure PeerState where
  info : PeerInfo
  deriving DecidableEq

/-- Model of `Room`: the peers map as an association list. -/
structure Room where
  peers : List (PeerId × PeerState)
  deriving DecidableEq

/-- Model of `SignalingError`. -/
inductive SignalingError
  | RoomNotFound (code : RoomCode)
  | Internal (msg : List Nat)
  deriving DecidableEq

/-- The display string of a `SignalingError`, from the `thiserror`
attributes: `room not found: {0}` and `internal error: {0}`, where a
`RoomCode` displays as its `as_str` rendering. -/
def SignalingError.message : SignalingError → List Nat
  | .RoomNotFound code => strBytes ("room not found: ") ++ code.render
  | .Internal msg => strBytes ("internal error: ") ++ msg

/-- Model of `ServerMessage` (`src/signaling/messages.rs`). -/
inductive ServerMessage
  | roomCreated (code : RoomCode) (your_id : PeerId)
  | roomJoined (code : RoomCode) (your_id : PeerId) (peers : List PeerInfo)
  | peerJoined (peer : PeerInfo)
  | error (message : List Nat)
  deriving DecidableEq

/-- The serde `type` tag of each `ServerMessage` variant, from the
`serde(rename)` attributes. -/
def ServerMessage.typeTag : ServerMessage → List Nat
  | .roomCreated _ _ => strBytes ("room_created")
  | .roomJoined _ _ _ => strBytes ("room_joined")
  | .peerJoined _ => strBytes ("peer_joined")
  | .error _ => strBytes ("error")

/-! ### Association-list model of `HashMap` -/

/-- Lookup in an association list (`HashMap::get`). -/
def lookupKey {κ α : Type} [DecidableEq κ] (k : κ) : List (κ × α) → Option α
  | [] => none
  | q :: m => if q.1 = k then some q.2 else lookupKey k m

/-- Removal from an association list (`HashMap::remove`). -/
def eraseKey {κ α : Type} [DecidableEq κ] (k : κ) : List (κ × α) → List (κ × α)
  | [] => []
  | q :: m => if q.1 = k then eraseKey k m else q :: eraseKey k m

/-- Insertion into an association list (`HashMap::insert`,
last-write-wins). -/
def insertKey {κ α : Type} [DecidableEq κ] (k : κ) (v : α) (m : List (κ × α)) :
    List (κ × α) :=
  (k, v) :: eraseKey k m

/-! ### Room manager actor (`src/signaling/actor.rs`) -/

/-- The two tables owned by `room_manager_actor`. -/
structure ActorState where
  rooms : List (RoomCode × Room)
  peer_rooms : List (PeerId × RoomCode)
  deriving DecidableEq

/-- The empty tables the actor starts from. -/
def ActorState.init : ActorState := ⟨[], []⟩

/-- Model of `RoomCommand`.  The values produced by `RoomCode::generate`
and `PeerId::generate` are random at runtime; that nondeterminism is
resolved by passing the generated values as command parameters. -/
inductive RoomCommand
  | Create (addr : SocketAddr) (code : RoomCode) (peer_id : PeerId)
  | Join (code : RoomCode) (addr : SocketAddr) (peer_id : PeerId)
  | Leave (peer_id : PeerId)

/-- The reply sent on a command reply channel. -/
inductive Reply
  | created (code : RoomCode) (peer_id : PeerId)
  | joined (r : Except SignalingError (PeerId × List PeerInfo))
  deriving DecidableEq

/-- The effect of one command: the new tables, the reply (if the
command carries a reply channel), and the notifications pushed onto
peer outbound queues, in order. -/
structure StepResult where
  state : ActorState
  reply : Option Reply
  sends : List (PeerId × ServerMessage)
  deriving DecidableEq

/-- One iteration of the `room_manager_actor` loop. -/
def step (s : ActorState) : RoomCommand → StepResult
  | .Create addr code peer_id =>
    let peer_state : PeerState := ⟨⟨peer_id, some addr⟩⟩
    let room : Room := ⟨[(peer_id, peer_state)]⟩
    { state := { rooms := insertKey code room s.rooms,
                 peer_rooms := insertKey peer_id code s.peer_rooms },
      reply := some (.created code peer_id),
      sends := [] }
  | .Join code addr peer_id =>
    match lookupKey code s.rooms with
    | some room =>
      let existing_peers : List PeerInfo := room.peers.map (fun p => p.2.info)
      let join_msg : ServerMessage := .peerJoined ⟨peer_id, some addr⟩
      let sends := room.peers.map (fun p => (p.1, join_msg))
      let peer_state : PeerState := ⟨⟨peer_id, some addr⟩⟩
      { state := { rooms := insertKey code ⟨insertKey peer_id peer_state room.peers⟩ s.rooms,
                   peer_rooms := insertKey peer_id code s.peer_rooms },
        reply := some (.joined (.ok (peer_id, existing_peers))),
        sends := sends }
    | none =>
      { state := s, reply := some (.joined (.error (.RoomNotFound code))), sends := [] }
  | .Leave peer_id =>
    match lookupKey peer_id s.peer_rooms with
    | some code =>
      let pr := eraseKey peer_id s.peer_rooms
      match lookupKey code s.rooms with
      | some room =>
        let room2 : Room := ⟨eraseKey peer_id room.peers⟩
        let rms := if room2.peers.isEmpty then eraseKey code s.rooms
                   else insertKey code room2 s.rooms
        { state := ⟨rms, pr⟩, reply := none, sends := [] }
      | none => { state := ⟨s.rooms, pr⟩, reply := none, sends := [] }
    | none => { state := s, reply := none, sends := [] }

/-- Run a sequence of commands. -/
def execTrace : ActorState → List RoomCommand → ActorState
  | s, [] => s
  | s, c :: cs => execTrace (step s c).state cs

/-- Freshness of the generated values carried by a command, relative to
the current tables.  This is how the random generation of codes and ids
(`§3: fresh generation each time`) enters the model. -/
def FreshCmd (s : ActorState) : RoomCommand → Prop
  | .Create _ code peer_id =>
      lookupKey code s.rooms = none ∧ lookupKey peer_id s.peer_rooms = none
  | .Join _ _ peer_id => lookupKey peer_id s.peer_rooms = none
  | .Leave _ => True

/-- Every command of the trace carries fresh generated values at the
point it is processed. -/
def TraceFresh : ActorState → List RoomCommand → Prop
  | _, [] => True
  | s, c :: cs => FreshCmd s c ∧ TraceFresh (step s c).state cs

/-- The actor-maintained invariants of spec §3. -/
def Inv (s : ActorState) : Prop :=
  (∀ p code, lookupKey p s.peer_rooms = some code →
    ∃ room, lookupKey code s.rooms = some room ∧ (lookupKey p room.peers).isSome) ∧
  (∀ code room, lookupKey code s.rooms = some room →
    ∀ q ∈ room.peers, lookupKey q.1 s.peer_rooms = some code) ∧
  (∀ code room, lookupKey code s.rooms = some room → room.peers ≠ [])

/-! ### Connection handler (`src/signaling/server.rs`) -/

/-- The reply the `JoinRoom` arm of `handle_text_message` sends back to
its own client, as a function of the actor reply. -/
def handleJoinReply (code : RoomCode)
    (result : Except SignalingError (PeerId × List PeerInfo)) : ServerMessage :=
  match result with
  | .ok (new_peer_id, peers) => .roomJoined code new_peer_id peers
  | .error e => .error e.message

/-! ### Association-list lemmas -/

theorem lookupKey_insert_self {κ α : Type} [DecidableEq κ] (k : κ) (v : α)
    (m : List (κ × α)) : lookupKey k (insertKey k v m) = some v := by
  simp [insertKey, lookupKey]

theorem lookupKey_erase_self {κ α : Type} [DecidableEq κ] (k : κ)
    (m : List (κ × α)) : lookupKey k (eraseKey k m) = none := by
  induction m with
  | nil => rfl
  | cons q m ih =>
    by_cases hq : q.1 = k
    · simpa [eraseKey, hq] using ih
    · simpa [eraseKey, lookupKey, hq] using ih

theorem lookupKey_erase_ne {κ α : Type} [DecidableEq κ] {k1 k : κ}
    (m : List (κ × α)) (h : k1 ≠ k) :
    lookupKey k1 (eraseKey k m) = lookupKey k1 m := by
  induction m with
  | nil => rfl
  | cons r m ih =>
    by_cases hr : r.1 = k
    · have hne : ¬ r.1 = k1 := by
        rw [hr]
        exact fun hc => h hc.symm
      rw [eraseKey, if_pos hr, ih, lookupKey, if_neg hne]
    · by_cases hr1 : r.1 = k1
      · rw [eraseKey, if_neg hr, lookupKey, if_pos hr1, lookupKey, if_pos hr1]
      · rw [eraseKey, if_neg hr, lookupKey, if_neg hr1, lookupKey, if_neg hr1, ih]

theorem lookupKey_insert_ne {κ α : Type} [DecidableEq κ] {k1 k : κ} (v : α)
    (m : List (κ × α)) (h : k1 ≠ k) :
    lookupKey k1 (insertKey k v m) = lookupKey k1 m := by
  have hk : k ≠ k1 := fun hc => h hc.symm
  simp [insertKey, lookupKey, hk, lookupKey_erase_ne m h]

theorem mem_eraseKey {κ α : Type} [DecidableEq κ] {q : κ × α} {k : κ}
    {m : List (κ × α)} : q ∈ eraseKey k m ↔ q ∈ m ∧ q.1 ≠ k := by
  induction m with
  | nil => simp [eraseKey]
  | cons r m ih =>
    by_cases hr : r.1 = k
    · rw [eraseKey, if_pos hr, ih]
      constructor
      · rintro ⟨h1, h2⟩
        exact ⟨List.mem_cons_of_mem r h1, h2⟩
      · rintro ⟨h1, h2⟩
        rcases List.mem_cons.mp h1 with h1 | h1
        · exact absurd (by rw [h1]; exact hr) h2
        · exact ⟨h1, h2⟩
    · rw [eraseKey, if_neg hr]
      constructor
      · intro hm
        rcases List.mem_cons.mp hm with h1 | h1
        · subst h1
          exact ⟨List.mem_cons_self q m, hr⟩
        · rcases ih.mp h1 with ⟨h2, h3⟩
          exact ⟨List.mem_cons_of_mem r h2, h3⟩
      · rintro ⟨h1, h2⟩
        rcases List.mem_cons.mp h1 with h1 | h1
        · subst h1
          exact List.mem_cons_self q (eraseKey k m)
        · exact List.mem_cons_of_mem r (ih.mpr ⟨h1, h2⟩)

theorem mem_insertKey {κ α : Type} [DecidableEq κ] {q : κ × α} {k : κ} {v : α}
    {m : List (κ × α)} :
    q ∈ insertKey k v m ↔ q = (k, v) ∨ (q ∈ m ∧ q.1 ≠ k) := by
  simp [insertKey, List.mem_cons, mem_eraseKey]

theorem lookupKey_isSome_of_mem {κ α : Type} [DecidableEq κ] {q : κ × α}
    {m : List (κ × α)} (h : q ∈ m) : (lookupKey q.1 m).isSome := by
  induction m with
  | nil => cases h
  | cons r m ih =>
    rcases List.mem_cons.mp h with h1 | h1
    · simp [lookupKey, h1]
    · by_cases hr : r.1 = q.1
      · simp [lookupKey, hr]
      · simpa [lookupKey, hr] using ih h1

theorem mem_of_lookupKey_eq_some {κ α : Type} [DecidableEq κ] {k : κ} {v : α}
    {m : List (κ × α)} (h : lookupKey k m = some v) : (k, v) ∈ m := by
  induction m with
  | nil => cases h
  | cons r m ih =>
    by_cases hr : r.1 = k
    · rw [lookupKey, if_pos hr] at h
      have : r = (k, v) := by
        cases r
        cases Option.some.inj h
        cases hr
        rfl
      exact this ▸ List.mem_cons_self r m
    · rw [lookupKey, if_neg hr] at h
      exact List.mem_cons_of_mem r (ih h)

/-! ### List and arithmetic helpers -/

theorem take_len_append {α : Type} {l1 : List α} (l2 : List α) {n : Nat}
    (h : l1.length = n) : (l1 ++ l2).take n = l1 := by
  subst h
  induction l1 with
  | nil => rfl
  | cons a l ih => simp [ih]

theorem drop_len_append {α : Type} {l1 : List α} (l2 : List α) {n : Nat}
    (h : l1.length = n) : (l1 ++ l2).drop n = l2 := by
  subst h
  induction l1 with
  | nil => rfl
  | cons a l ih => simp [ih]

theorem getD_drop_eq {α : Type} (l : List α) (n i : Nat) (d : α) :
    (l.drop n).getD i d = l.getD (n + i) d := by
  induction n generalizing l with
  | zero => simp
  | succ n ih =>
    cases l with
    | nil => simp
    | cons a l =>
      have h1 : n + 1 + i = (n + i) + 1 := by omega
      simp [h1, ih, List.getD_cons_succ]

theorem xor_lt_65536 {x y : Nat} (hx : x < 65536) (hy : y < 65536) : x ^^^ y < 65536 := by
  have := Nat.xor_lt_two_pow (n := 16) (by simpa using hx) (by simpa using hy)
  simpa using this

/-! ### STUN builder lemmas -/

theorem magic_cookie_bytes : u32_to_be_bytes MAGIC_COOKIE = [0x21, 0x12, 0xA4, 0x42] := rfl

theorem magic_cookie_hi : MAGIC_COOKIE >>> 16 = 0x2112 := rfl

/-- The response buffer as one header prefix followed by the transaction
id and the attribute bytes. -/
theorem binding_response_bytes_decomp (xid : List Nat) (a : SocketAddrV4) :
    binding_response_bytes xid a
      = [0x01, 0x01, 0x00, 0x0C, 0x21, 0x12, 0xA4, 0x42]
        ++ (xid ++ ([0x00, 0x20, 0x00, 0x08, 0x00, 0x01]
          ++ ((a.port ^^^ 0x2112) / 256 % 256
              :: (a.port ^^^ 0x2112) % 256
              :: [a.ip.o0 ^^^ 0x21, a.ip.o1 ^^^ 0x12,
                  a.ip.o2 ^^^ 0xA4, a.ip.o3 ^^^ 0x42]))) := by
  simp [binding_response_bytes, u16_to_be_bytes, magic_cookie_bytes, magic_cookie_hi,
    List.append_assoc]

theorem binding_response_bytes_length (xid : List Nat) (a : SocketAddrV4)
    (h : xid.length = 12) : (binding_response_bytes xid a).length = 32 := by
  rw [binding_response_bytes_decomp]
  simp [h]

theorem binding_response_drop8 (xid : List Nat) (a : SocketAddrV4) :
    (binding_response_bytes xid a).drop 8
      = xid ++ ([0x00, 0x20, 0x00, 0x08, 0x00, 0x01]
          ++ ((a.port ^^^ 0x2112) / 256 % 256 :: (a.port ^^^ 0x2112) % 256
              :: [a.ip.o0 ^^^ 0x21, a.ip.o1 ^^^ 0x12,
                  a.ip.o2 ^^^ 0xA4, a.ip.o3 ^^^ 0x42])) := by
  rw [binding_response_bytes_decomp]
  exact drop_len_append _ (by norm_num)

theorem binding_response_drop20 (xid : List Nat) (a : SocketAddrV4)
    (hlen : xid.length = 12) :
    (binding_response_bytes xid a).drop 20
      = [0x00, 0x20, 0x00, 0x08, 0x00, 0x01]
        ++ ((a.port ^^^ 0x2112) / 256 % 256 :: (a.port ^^^ 0x2112) % 256
            :: [a.ip.o0 ^^^ 0x21, a.ip.o1 ^^^ 0x12,
                a.ip.o2 ^^^ 0xA4, a.ip.o3 ^^^ 0x42]) := by
  have h1 : (binding_response_bytes xid a).drop 20
      = ((binding_response_bytes xid a).drop 8).drop 12 := by
    rw [List.drop_drop]
  rw [h1, binding_response_drop8, drop_len_append _ hlen]

theorem binding_response_drop26 (xid : List Nat) (a : SocketAddrV4)
    (hlen : xid.length = 12) :
    (binding_response_bytes xid a).drop 26
      = (a.port ^^^ 0x2112) / 256 % 256 :: (a.port ^^^ 0x2112) % 256
        :: [a.ip.o0 ^^^ 0x21, a.ip.o1 ^^^ 0x12, a.ip.o2 ^^^ 0xA4, a.ip.o3 ^^^ 0x42] := by
  have h1 : (binding_response_bytes xid a).drop 26
      = ((binding_response_bytes xid a).drop 20).drop 6 := by
    rw [List.drop_drop]
  rw [h1, binding_response_drop20 xid a hlen]
  rfl

/-- Decoding the XOR-MAPPED-ADDRESS of a built response recovers the
client address and port. -/
theorem decode_of_binding_response (xid : List Nat) (a : SocketAddrV4)
    (hlen : xid.length = 12) (hport : a.port < 65536) :
    decode_xor_mapped_address (binding_response_bytes xid a) = (a.port, a.ip) := by
  obtain ⟨⟨o0, o1, o2, o3⟩, port⟩ := a
  have hx : (port ^^^ 0x2112) < 65536 := xor_lt_65536 hport (by norm_num)
  have hxd : (port ^^^ 0x2112) / 256 < 256 := by omega
  have h26 := binding_response_drop26 xid ⟨⟨o0, o1, o2, o3⟩, port⟩ hlen
  set bs := binding_response_bytes xid ⟨⟨o0, o1, o2, o3⟩, port⟩ with hbsdef
  have g26 : bs.getD 26 0 = (port ^^^ 0x2112) / 256 % 256 := by
    have h1 := getD_drop_eq bs 26 0 0
    rw [h26] at h1
    simpa using h1.symm
  have g27 : bs.getD 27 0 = (port ^^^ 0x2112) % 256 := by
    have h1 := getD_drop_eq bs 26 1 0
    rw [h26] at h1
    simpa using h1.symm
  have g28 : bs.getD 28 0 = o0 ^^^ 0x21 := by
    have h1 := getD_drop_eq bs 26 2 0
    rw [h26] at h1
    simpa using h1.symm
  have g29 : bs.getD 29 0 = o1 ^^^ 0x12 := by
    have h1 := getD_drop_eq bs 26 3 0
    rw [h26] at h1
    simpa using h1.symm
  have g30 : bs.getD 30 0 = o2 ^^^ 0xA4 := by
    have h1 := getD_drop_eq bs 26 4 0
    rw [h26] at h1
    simpa using h1.symm
  have g31 : bs.getD 31 0 = o3 ^^^ 0x42 := by
    have h1 := getD_drop_eq bs 26 5 0
    rw [h26] at h1
    simpa using h1.symm
  rw [decode_xor_mapped_address, g26, g27, g28, g29, g30, g31, magic_cookie_hi]
  have hu : u16_from_be ((port ^^^ 0x2112) / 256 % 256) ((port ^^^ 0x2112) % 256)
      = port ^^^ 0x2112 := by
    rw [u16_from_be, Nat.mod_eq_of_lt hxd]
    omega
  rw [hu, Nat.xor_cancel_right]
  simp [Nat.xor_cancel_right]

/-! ### STUN parser lemmas -/

theorem parse_eval_short (d : List Nat) (h : d.length < HEADER_SIZE) :
    StunRequest.parse d = .error (.MessageTooShort 20 d.length) := by
  rw [StunRequest.parse, if_pos h]
  rfl

theorem parse_eval_long (d : List Nat) (h : ¬ d.length < HEADER_SIZE) :
    StunRequest.parse d =
      (match MessageType.from_u16 (u16_from_be (d.getD 0 0) (d.getD 1 0)) with
       | none => Except.error
           (StunError.UnknownMessageType (u16_from_be (d.getD 0 0) (d.getD 1 0)))
       | some t =>
         if u32_from_be (d.getD 4 0) (d.getD 5 0) (d.getD 6 0) (d.getD 7 0)
             ≠ MAGIC_COOKIE then
           Except.error (StunError.InvalidMagicCookie MAGIC_COOKIE
             (u32_from_be (d.getD 4 0) (d.getD 5 0) (d.getD 6 0) (d.getD 7 0)))
         else
           Except.ok (StunRequest.mk t ((d.drop 8).take 12))) := by
  rw [StunRequest.parse, if_neg h]

/-- Evaluation of `StunRequest::parse` on a byte list presented as an
explicit 8-byte header prefix followed by a 12-byte transaction id and
arbitrary trailing bytes. -/
theorem parse_cons_eval (b0 b1 b2 b3 b4 b5 b6 b7 : Nat) (mid rest : List Nat)
    (hmid : mid.length = 12) :
    StunRequest.parse (b0 :: b1 :: b2 :: b3 :: b4 :: b5 :: b6 :: b7 :: (mid ++ rest)) =
      (match MessageType.from_u16 (u16_from_be b0 b1) with
       | none => Except.error (StunError.UnknownMessageType (u16_from_be b0 b1))
       | some t =>
         if u32_from_be b4 b5 b6 b7 ≠ MAGIC_COOKIE then
           Except.error (StunError.InvalidMagicCookie MAGIC_COOKIE (u32_from_be b4 b5 b6 b7))
         else
           Except.ok (StunRequest.mk t mid)) := by
  have hL : ¬ (b0 :: b1 :: b2 :: b3 :: b4 :: b5 :: b6 :: b7 :: (mid ++ rest)).length
      < HEADER_SIZE := by
    simp [HEADER_SIZE, hmid]
  rw [StunRequest.parse, if_neg hL]
  show (match MessageType.from_u16 (u16_from_be b0 b1) with
       | none => Except.error (StunError.UnknownMessageType (u16_from_be b0 b1))
       | some t =>
         if u32_from_be b4 b5 b6 b7 ≠ MAGIC_COOKIE then
           Except.error (StunError.InvalidMagicCookie MAGIC_COOKIE (u32_from_be b4 b5 b6 b7))
         else
           Except.ok (StunRequest.mk t ((mid ++ rest).take 12)))
    = (match MessageType.from_u16 (u16_from_be b0 b1) with
       | none => Except.error (StunError.UnknownMessageType (u16_from_be b0 b1))
       | some t =>
         if u32_from_be b4 b5 b6 b7 ≠ MAGIC_COOKIE then
           Except.error (StunError.InvalidMagicCookie MAGIC_COOKIE (u32_from_be b4 b5 b6 b7))
         else
           Except.ok (StunRequest.mk t mid))
  rw [take_len_append rest hmid]

/-- A successful parse always yields a 12-byte transaction id. -/
theorem parse_ok_transaction_length (d : List Nat) (r : StunRequest)
    (h : StunRequest.parse d = .ok r) : r.transaction_id.length = 12 := by
  by_cases hlen : d.length < HEADER_SIZE
  · rw [parse_eval_short d hlen] at h
    exact Except.noConfusion h
  · rw [parse_eval_long d hlen] at h
    cases hf : MessageType.from_u16 (u16_from_be (d.getD 0 0) (d.getD 1 0)) with
    | none =>
      simp only [hf] at h
      exact Except.noConfusion h
    | some t =>
      simp only [hf] at h
      by_cases hc : u32_from_be (d.getD 4 0) (d.getD 5 0) (d.getD 6 0) (d.getD 7 0)
          ≠ MAGIC_COOKIE
      · rw [if_pos hc] at h
        exact Except.noConfusion h
      · rw [if_neg hc] at h
        cases h
        have hlen2 : 20 ≤ d.length := by
          simp [HEADER_SIZE] at hlen
          omega
        simp [List.length_take, List.length_drop]
        omega

/-! ### Actor step lemmas -/

theorem step_create (s : ActorState) (addr : SocketAddr) (code : RoomCode) (pid : PeerId) :
    step s (.Create addr code pid)
      = ⟨⟨insertKey code ⟨[(pid, ⟨⟨pid, some addr⟩⟩)]⟩ s.rooms,
          insertKey pid code s.peer_rooms⟩,
         some (.created code pid), []⟩ := rfl

theorem step_join_found {s : ActorState} {code : RoomCode} {room : Room}
    (addr : SocketAddr) (pid : PeerId) (h : lookupKey code s.rooms = some room) :
    step s (.Join code addr pid)
      = ⟨⟨insertKey code ⟨insertKey pid ⟨⟨pid, some addr⟩⟩ room.peers⟩ s.rooms,
          insertKey pid code s.peer_rooms⟩,
         some (.joined (.ok (pid, room.peers.map (fun p => p.2.info)))),
         room.peers.map (fun p => (p.1, .peerJoined ⟨pid, some addr⟩))⟩ := by
  simp [step, h]

theorem step_join_notfound {s : ActorState} {code : RoomCode}
    (addr : SocketAddr) (pid : PeerId) (h : lookupKey code s.rooms = none) :
    step s (.Join code addr pid)
      = ⟨s, some (.joined (.error (.RoomNotFound code))), []⟩ := by
  simp [step, h]

theorem step_leave_absent {s : ActorState} {pid : PeerId}
    (h : lookupKey pid s.peer_rooms = none) :
    step s (.Leave pid) = ⟨s, none, []⟩ := by
  simp [step, h]

theorem step_leave_no_room {s : ActorState} {pid : PeerId} {code : RoomCode}
    (hpr : lookupKey pid s.peer_rooms = some code)
    (hrm : lookupKey code s.rooms = none) :
    step s (.Leave pid) = ⟨⟨s.rooms, eraseKey pid s.peer_rooms⟩, none, []⟩ := by
  simp [step, hpr, hrm]

theorem step_leave_empties {s : ActorState} {pid : PeerId} {code : RoomCode} {room : Room}
    (hpr : lookupKey pid s.peer_rooms = some code)
    (hrm : lookupKey code s.rooms = some room)
    (hemp : eraseKey pid room.peers = []) :
    step s (.Leave pid)
      = ⟨⟨eraseKey code s.rooms, eraseKey pid s.peer_rooms⟩, none, []⟩ := by
  simp [step, hpr, hrm, hemp]

theorem step_leave_keeps {s : ActorState} {pid : PeerId} {code : RoomCode} {room : Room}
    (hpr : lookupKey pid s.peer_rooms = some code)
    (hrm : lookupKey code s.rooms = some room)
    (hne : eraseKey pid room.peers ≠ []) :
    step s (.Leave pid)
      = ⟨⟨insertKey code ⟨eraseKey pid room.peers⟩ s.rooms,
          eraseKey pid s.peer_rooms⟩, none, []⟩ := by
  have hb : (eraseKey pid room.peers).isEmpty = false := by
    cases hq : eraseKey pid room.peers with
    | nil => exact absurd hq hne
    | cons a l => rfl
  simp [step, hpr, hrm, hb]

theorem step_preserves_inv (s : ActorState) (c : RoomCommand)
    (hs : Inv s) (hf : FreshCmd s c) : Inv (step s c).state := by
  obtain ⟨h1, h2, h3⟩ := hs
  cases c with
  | Create addr code pid =>
    obtain ⟨hfc, hfp⟩ := hf
    rw [step_create]
    refine ⟨?_, ?_, ?_⟩
    · intro p c0 hp
      by_cases hppid : p = pid
      · subst hppid
        rw [lookupKey_insert_self] at hp
        cases hp
        refine ⟨⟨[(p, ⟨⟨p, some addr⟩⟩)]⟩, lookupKey_insert_self _ _ _, ?_⟩
        simp [lookupKey]
      · rw [lookupKey_insert_ne _ _ hppid] at hp
        obtain ⟨room0, hroom0, hmem⟩ := h1 p c0 hp
        have hne : c0 ≠ code := by
          intro hcc
          rw [hcc, hfc] at hroom0
          exact Option.noConfusion hroom0
        exact ⟨room0, by rw [lookupKey_insert_ne _ _ hne]; exact hroom0, hmem⟩
    · intro c0 room0 hr q hq
      by_cases hcc : c0 = code
      · rw [hcc, lookupKey_insert_self] at hr
        have hre := Option.some.inj hr
        rw [← hre] at hq
        have hq2 : q = (pid, ⟨⟨pid, some addr⟩⟩) := by simpa using hq
        rw [hq2, hcc]
        exact lookupKey_insert_self _ _ _
      · rw [lookupKey_insert_ne _ _ hcc] at hr
        have hq2 := h2 c0 room0 hr q hq
        have hqpid : q.1 ≠ pid := by
          intro hqq
          rw [hqq, hfp] at hq2
          exact Option.noConfusion hq2
        rw [lookupKey_insert_ne _ _ hqpid]
        exact hq2
    · intro c0 room0 hr
      by_cases hcc : c0 = code
      · rw [hcc, lookupKey_insert_self] at hr
        have hre := Option.some.inj hr
        rw [← hre]
        simp
      · rw [lookupKey_insert_ne _ _ hcc] at hr
        exact h3 c0 room0 hr
  | Join code addr pid =>
    cases hroom : lookupKey code s.rooms with
    | none =>
      rw [step_join_notfound addr pid hroom]
      exact ⟨h1, h2, h3⟩
    | some room =>
      have hfp : lookupKey pid s.peer_rooms = none := hf
      rw [step_join_found addr pid hroom]
      refine ⟨?_, ?_, ?_⟩
      · intro p c0 hp
        by_cases hppid : p = pid
        · subst hppid
          rw [lookupKey_insert_self] at hp
          cases hp
          refine ⟨⟨insertKey p ⟨⟨p, some addr⟩⟩ room.peers⟩, lookupKey_insert_self _ _ _, ?_⟩
          simp [lookupKey_insert_self]
        · rw [lookupKey_insert_ne _ _ hppid] at hp
          obtain ⟨room0, hroom0, hmem⟩ := h1 p c0 hp
          by_cases hcc : c0 = code
          · rw [hcc, hroom] at hroom0
            have hre : room = room0 := Option.some.inj hroom0
            refine ⟨⟨insertKey pid ⟨⟨pid, some addr⟩⟩ room.peers⟩, ?_, ?_⟩
            · rw [hcc]
              exact lookupKey_insert_self _ _ _
            · show (lookupKey p (insertKey pid _ room.peers)).isSome
              rw [lookupKey_insert_ne _ _ hppid, hre]
              exact hmem
          · refine ⟨room0, ?_, hmem⟩
            rw [lookupKey_insert_ne _ _ hcc]
            exact hroom0
      · intro c0 room0 hr q hq
        by_cases hcc : c0 = code
        · rw [hcc, lookupKey_insert_self] at hr
          have hre := Option.some.inj hr
          have hq5 : q ∈ insertKey pid (⟨⟨pid, some addr⟩⟩ : PeerState) room.peers := by
            rw [← hre] at hq
            exact hq
          rcases mem_insertKey.mp hq5 with hq2 | ⟨hq2, hq3⟩
          · rw [hq2, hcc]
            exact lookupKey_insert_self _ _ _
          · have hq4 := h2 code room hroom q hq2
            rw [hcc, lookupKey_insert_ne _ _ hq3]
            exact hq4
        · rw [lookupKey_insert_ne _ _ hcc] at hr
          have hq2 := h2 c0 room0 hr q hq
          have hqpid : q.1 ≠ pid := by
            intro hqq
            rw [hqq, hfp] at hq2
            exact Option.noConfusion hq2
          rw [lookupKey_insert_ne _ _ hqpid]
          exact hq2
      · intro c0 room0 hr
        by_cases hcc : c0 = code
        · rw [hcc, lookupKey_insert_self] at hr
          have hre := Option.some.inj hr
          rw [← hre]
          simp [insertKey]
        · rw [lookupKey_insert_ne _ _ hcc] at hr
          exact h3 c0 room0 hr
  | Leave pid =>
    cases hpr : lookupKey pid s.peer_rooms with
    | none =>
      rw [step_leave_absent hpr]
      exact ⟨h1, h2, h3⟩
    | some code =>
      cases hrm : lookupKey code s.rooms with
      | none =>
        obtain ⟨room0, hroom0, _⟩ := h1 pid code hpr
        rw [hrm] at hroom0
        exact Option.noConfusion hroom0
      | some room =>
        by_cases hemp : eraseKey pid room.peers = []
        · rw [step_leave_empties hpr hrm hemp]
          refine ⟨?_, ?_, ?_⟩
          · intro p c0 hp
            have hppid : p ≠ pid := by
              intro hpe
              rw [hpe, lookupKey_erase_self] at hp
              exact Option.noConfusion hp
            rw [lookupKey_erase_ne _ hppid] at hp
            obtain ⟨room0, hroom0, hmem⟩ := h1 p c0 hp
            have hcc : c0 ≠ code := by
              intro hce
              rw [hce, hrm] at hroom0
              have hre : room = room0 := Option.some.inj hroom0
              obtain ⟨v, hv⟩ := Option.isSome_iff_exists.mp hmem
              have hmem2 : (p, v) ∈ room0.peers := mem_of_lookupKey_eq_some hv
              have hmem3 : (p, v) ∈ eraseKey pid room0.peers :=
                mem_eraseKey.mpr ⟨hmem2, hppid⟩
              rw [← hre, hemp] at hmem3
              cases hmem3
            refine ⟨room0, ?_, hmem⟩
            rw [lookupKey_erase_ne _ hcc]
            exact hroom0
          · intro c0 room0 hr q hq
            have hcc : c0 ≠ code := by
              intro hce
              rw [hce, lookupKey_erase_self] at hr
              exact Option.noConfusion hr
            rw [lookupKey_erase_ne _ hcc] at hr
            have hq2 := h2 c0 room0 hr q hq
            have hqpid : q.1 ≠ pid := by
              intro hqq
              rw [hqq, hpr] at hq2
              cases hq2
              exact hcc rfl
            rw [lookupKey_erase_ne _ hqpid]
            exact hq2
          · intro c0 room0 hr
            have hcc : c0 ≠ code := by
              intro hce
              rw [hce, lookupKey_erase_self] at hr
              exact Option.noConfusion hr
            rw [lookupKey_erase_ne _ hcc] at hr
            exact h3 c0 room0 hr
        · rw [step_leave_keeps hpr hrm hemp]
          refine ⟨?_, ?_, ?_⟩
          · intro p c0 hp
            have hppid : p ≠ pid := by
              intro hpe
              rw [hpe, lookupKey_erase_self] at hp
              exact Option.noConfusion hp
            rw [lookupKey_erase_ne _ hppid] at hp
            obtain ⟨room0, hroom0, hmem⟩ := h1 p c0 hp
            by_cases hcc : c0 = code
            · rw [hcc, hrm] at hroom0
              have hre : room = room0 := Option.some.inj hroom0
              refine ⟨⟨eraseKey pid room.peers⟩, ?_, ?_⟩
              · rw [hcc]
                exact lookupKey_insert_self _ _ _
              · show (lookupKey p (eraseKey pid room.peers)).isSome
                rw [lookupKey_erase_ne _ hppid, hre]
                exact hmem
            · refine ⟨room0, ?_, hmem⟩
              rw [lookupKey_insert_ne _ _ hcc]
              exact hroom0
          · intro c0 room0 hr q hq
            by_cases hcc : c0 = code
            · rw [hcc, lookupKey_insert_self] at hr
              have hre := Option.some.inj hr
              have hq5 : q ∈ eraseKey pid room.peers := by
                rw [← hre] at hq
                exact hq
              obtain ⟨hq2, hq3⟩ := mem_eraseKey.mp hq5
              have hq4 := h2 code room hrm q hq2
              rw [hcc, lookupKey_erase_ne _ hq3]
              exact hq4
            · rw [lookupKey_insert_ne _ _ hcc] at hr
              have hq2 := h2 c0 room0 hr q hq
              have hqpid : q.1 ≠ pid := by
                intro hqq
                rw [hqq, hpr] at hq2
                cases hq2
                exact hcc rfl
              rw [lookupKey_erase_ne _ hqpid]
              exact hq2
          · intro c0 room0 hr
            by_cases hcc : c0 = code
            · rw [hcc, lookupKey_insert_self] at hr
              have hre := Option.some.inj hr
              rw [← hre]
              exact hemp
            · rw [lookupKey_insert_ne _ _ hcc] at hr
              exact h3 c0 room0 hr

/-! ### Claim theorems -/

/-- C1: for every 12-byte transaction id and IPv4 address with a 16-bit
port, binding_response produces exactly 32 bytes laid out as the claim
states, and decoding the XOR-MAPPED-ADDRESS recovers the address and
port. -/
theorem binding_response_wire_format (xid : List Nat) (a : SocketAddrV4)
    (hlen : xid.length = 12) (hport : a.port < 65536) :
    StunResponse.binding_response xid a = some (binding_response_bytes xid a) ∧
    (binding_response_bytes xid a).length = 32 ∧
    (binding_response_bytes xid a).take 2 = [0x01, 0x01] ∧
    ((binding_response_bytes xid a).drop 2).take 2 = [0x00, 0x0C] ∧
    ((binding_response_bytes xid a).drop 4).take 4 = [0x21, 0x12, 0xA4, 0x42] ∧
    ((binding_response_bytes xid a).drop 8).take 12 = xid ∧
    ((binding_response_bytes xid a).drop 20).take 6 = [0x00, 0x20, 0x00, 0x08, 0x00, 0x01] ∧
    ((binding_response_bytes xid a).drop 26).take 2
      = [(a.port ^^^ 0x2112) / 256, (a.port ^^^ 0x2112) % 256] ∧
    (binding_response_bytes xid a).drop 28
      = [a.ip.o0 ^^^ 0x21, a.ip.o1 ^^^ 0x12, a.ip.o2 ^^^ 0xA4, a.ip.o3 ^^^ 0x42] ∧
    decode_xor_mapped_address (binding_response_bytes xid a) = (a.port, a.ip) := by
  have hx : (a.port ^^^ 0x2112) < 65536 := xor_lt_65536 hport (by norm_num)
  have hxd : (a.port ^^^ 0x2112) / 256 < 256 := by omega
  refine ⟨?_, binding_response_bytes_length xid a hlen, ?_, ?_, ?_, ?_, ?_, ?_, ?_,
    decode_of_binding_response xid a hlen hport⟩
  · rw [StunResponse.binding_response, if_pos hlen]
  · rw [binding_response_bytes_decomp]
    rfl
  · rw [binding_response_bytes_decomp]
    rfl
  · rw [binding_response_bytes_decomp]
    rfl
  · rw [binding_response_drop8]
    exact take_len_append _ hlen
  · rw [binding_response_drop20 xid a hlen]
    rfl
  · rw [binding_response_drop26 xid a hlen, Nat.mod_eq_of_lt hxd]
    rfl
  · have h1 : (binding_response_bytes xid a).drop 28
        = ((binding_response_bytes xid a).drop 26).drop 2 := by
      rw [List.drop_drop]
    rw [h1, binding_response_drop26 xid a hlen]
    rfl

/-- Witness for C1 at the transaction id BENCHMARK123 and address
192.168.1.100:12345 from the spec scenario. -/
theorem binding_response_wire_format_witness :
    decode_xor_mapped_address
        (binding_response_bytes
          ([0x42, 0x45, 0x4E, 0x43, 0x48, 0x4D, 0x41, 0x52, 0x4B, 0x31, 0x32, 0x33])
          ⟨⟨192, 168, 1, 100⟩, 12345⟩)
      = (12345, ⟨192, 168, 1, 100⟩) :=
  (binding_response_wire_format
    ([0x42, 0x45, 0x4E, 0x43, 0x48, 0x4D, 0x41, 0x52, 0x4B, 0x31, 0x32, 0x33])
    ⟨⟨192, 168, 1, 100⟩, 12345⟩ (by decide) (by decide)).2.2.2.2.2.2.2.2.2

/-- C2: the error characterization of StunRequest::parse, and the fact
that the length field bytes 2..4 and any bytes past offset 20 never
affect the result. -/
theorem parse_characterization (d : List Nat) :
    (StunRequest.parse d = .error (.MessageTooShort 20 d.length) ↔ d.length < 20) ∧
    (StunRequest.parse d
        = .error (.UnknownMessageType (u16_from_be (d.getD 0 0) (d.getD 1 0)))
      ↔ 20 ≤ d.length
        ∧ MessageType.from_u16 (u16_from_be (d.getD 0 0) (d.getD 1 0)) = none) ∧
    (StunRequest.parse d
        = .error (.InvalidMagicCookie MAGIC_COOKIE
            (u32_from_be (d.getD 4 0) (d.getD 5 0) (d.getD 6 0) (d.getD 7 0)))
      ↔ 20 ≤ d.length
        ∧ (MessageType.from_u16 (u16_from_be (d.getD 0 0) (d.getD 1 0))).isSome
        ∧ u32_from_be (d.getD 4 0) (d.getD 5 0) (d.getD 6 0) (d.getD 7 0)
            ≠ MAGIC_COOKIE) ∧
    (∀ t : MessageType, 20 ≤ d.length →
      MessageType.from_u16 (u16_from_be (d.getD 0 0) (d.getD 1 0)) = some t →
      u32_from_be (d.getD 4 0) (d.getD 5 0) (d.getD 6 0) (d.getD 7 0) = MAGIC_COOKIE →
      StunRequest.parse d = .ok ⟨t, (d.drop 8).take 12⟩) ∧
    (∀ b0 b1 b2 b3 c2 c3 b4 b5 b6 b7 : Nat, ∀ mid rest rest2 : List Nat,
      mid.length = 12 →
      StunRequest.parse (b0 :: b1 :: b2 :: b3 :: b4 :: b5 :: b6 :: b7 :: (mid ++ rest))
        = StunRequest.parse
            (b0 :: b1 :: c2 :: c3 :: b4 :: b5 :: b6 :: b7 :: (mid ++ rest2))) := by
  have hirr : ∀ b0 b1 b2 b3 c2 c3 b4 b5 b6 b7 : Nat, ∀ mid rest rest2 : List Nat,
      mid.length = 12 →
      StunRequest.parse (b0 :: b1 :: b2 :: b3 :: b4 :: b5 :: b6 :: b7 :: (mid ++ rest))
        = StunRequest.parse
            (b0 :: b1 :: c2 :: c3 :: b4 :: b5 :: b6 :: b7 :: (mid ++ rest2)) := by
    intro b0 b1 b2 b3 c2 c3 b4 b5 b6 b7 mid rest rest2 hmid
    rw [parse_cons_eval b0 b1 b2 b3 b4 b5 b6 b7 mid rest hmid,
      parse_cons_eval b0 b1 c2 c3 b4 b5 b6 b7 mid rest2 hmid]
  by_cases hlen : d.length < 20
  · rw [parse_eval_short d hlen]
    refine ⟨iff_of_true rfl hlen, ?_, ?_, ?_, hirr⟩
    · exact iff_of_false (by simp) fun h => absurd h.1 (by omega)
    · exact iff_of_false (by simp) fun h => absurd h.1 (by omega)
    · intro t ht hf hc
      exact absurd ht (by omega)
  · have hlen2 : ¬ d.length < HEADER_SIZE := by simpa [HEADER_SIZE] using hlen
    have hge : 20 ≤ d.length := Nat.le_of_not_lt hlen
    rw [parse_eval_long d hlen2]
    cases hf : MessageType.from_u16 (u16_from_be (d.getD 0 0) (d.getD 1 0)) with
    | none =>
      refine ⟨iff_of_false (by simp) hlen, iff_of_true rfl ⟨hge, rfl⟩, ?_, ?_, hirr⟩
      · exact iff_of_false (by simp) fun h => by simpa using h.2.1
      · intro t ht hft hc
        exact Option.noConfusion hft
    | some t =>
      by_cases hc : u32_from_be (d.getD 4 0) (d.getD 5 0) (d.getD 6 0) (d.getD 7 0)
          ≠ MAGIC_COOKIE
      · refine ⟨iff_of_false (by simp [hc, -List.getD_eq_getElem?_getD]) hlen, ?_, ?_, ?_, hirr⟩
        · exact iff_of_false (by simp [hc, -List.getD_eq_getElem?_getD]) fun h => by simpa using h.2
        · exact iff_of_true (by simp [hc, -List.getD_eq_getElem?_getD]) ⟨hge, rfl, hc⟩
        · intro t2 ht hft hc2
          exact absurd hc2 hc
      · have hceq : u32_from_be (d.getD 4 0) (d.getD 5 0) (d.getD 6 0) (d.getD 7 0)
            = MAGIC_COOKIE := not_not.mp hc
        refine ⟨iff_of_false (by simp [hceq, -List.getD_eq_getElem?_getD]) hlen, ?_, ?_, ?_, hirr⟩
        · exact iff_of_false (by simp [hceq, -List.getD_eq_getElem?_getD]) fun h => by simpa using h.2
        · exact iff_of_false (by simp [hceq, -List.getD_eq_getElem?_getD]) fun h => h.2.2 hceq
        · intro t2 ht hft hc2
          cases hft
          simp [hceq, -List.getD_eq_getElem?_getD]

/-- C7: parsing a built binding response succeeds with type
BindingResponse, recovers the transaction id, passes cookie validation,
and decoding the XOR-MAPPED-ADDRESS recovers the address. -/
theorem binding_response_parse_roundtrip (xid : List Nat) (a : SocketAddrV4)
    (hlen : xid.length = 12) (hport : a.port < 65536) :
    StunResponse.binding_response xid a = some (binding_response_bytes xid a) ∧
    StunRequest.parse (binding_response_bytes xid a)
      = .ok ⟨.BindingResponse, xid⟩ ∧
    MessageType.to_u16 .BindingResponse = 0x0101 ∧
    decode_xor_mapped_address (binding_response_bytes xid a) = (a.port, a.ip) := by
  refine ⟨?_, ?_, rfl, decode_of_binding_response xid a hlen hport⟩
  · rw [StunResponse.binding_response, if_pos hlen]
  · rw [binding_response_bytes_decomp]
    rw [show ([0x01, 0x01, 0x00, 0x0C, 0x21, 0x12, 0xA4, 0x42] : List Nat)
          ++ (xid ++ ([0x00, 0x20, 0x00, 0x08, 0x00, 0x01]
            ++ ((a.port ^^^ 0x2112) / 256 % 256
                :: (a.port ^^^ 0x2112) % 256
                :: [a.ip.o0 ^^^ 0x21, a.ip.o1 ^^^ 0x12,
                    a.ip.o2 ^^^ 0xA4, a.ip.o3 ^^^ 0x42])))
        = 0x01 :: 0x01 :: 0x00 :: 0x0C :: 0x21 :: 0x12 :: 0xA4 :: 0x42
            :: (xid ++ ([0x00, 0x20, 0x00, 0x08, 0x00, 0x01]
              ++ ((a.port ^^^ 0x2112) / 256 % 256
                  :: (a.port ^^^ 0x2112) % 256
                  :: [a.ip.o0 ^^^ 0x21, a.ip.o1 ^^^ 0x12,
                      a.ip.o2 ^^^ 0xA4, a.ip.o3 ^^^ 0x42]))) from rfl]
    rw [parse_cons_eval _ _ _ _ _ _ _ _ xid _ hlen]
    norm_num [u16_from_be, u32_from_be, MessageType.from_u16, MAGIC_COOKIE]

/-- Witness for C7 at a concrete transaction id and address. -/
theorem binding_response_parse_roundtrip_witness :
    StunRequest.parse
        (binding_response_bytes ([1, 2, 3, 4, 5, 6, 7, 8, 9, 10, 11, 12])
          ⟨⟨10, 0, 0, 7⟩, 3478⟩)
      = .ok ⟨.BindingResponse, [1, 2, 3, 4, 5, 6, 7, 8, 9, 10, 11, 12]⟩ :=
  (binding_response_parse_roundtrip ([1, 2, 3, 4, 5, 6, 7, 8, 9, 10, 11, 12])
    ⟨⟨10, 0, 0, 7⟩, 3478⟩ (by decide) (by decide)).2.1

/-- Witness for C2: the characterization applied to the valid binding
request of the spec benchmark scenario, and to a short datagram. -/
theorem parse_characterization_witness :
    StunRequest.parse
        ([0x00, 0x01, 0x00, 0x00, 0x21, 0x12, 0xA4, 0x42,
          1, 2, 3, 4, 5, 6, 7, 8, 9, 10, 11, 12])
      = .ok ⟨.BindingRequest, [1, 2, 3, 4, 5, 6, 7, 8, 9, 10, 11, 12]⟩ :=
  (parse_characterization
      ([0x00, 0x01, 0x00, 0x00, 0x21, 0x12, 0xA4, 0x42,
        1, 2, 3, 4, 5, 6, 7, 8, 9, 10, 11, 12])).2.2.2.1
    .BindingRequest (by decide) (by decide) (by decide)

/-- C5 (amended): handle_request rejects a successfully parsed
non-BindingRequest with the string error that the source uses, rejects a
parsed BindingRequest from an IPv6 source with its string error, returns
Ok 32 for a valid BindingRequest from IPv4, and propagates parse errors. -/
theorem handle_request_rejections (d : List Nat) (addr : SocketAddr) :
    (∀ e, StunRequest.parse d = .error e →
      handle_request d addr = some (.error (.stun e))) ∧
    (∀ r, StunRequest.parse d = .ok r → r.msg_type ≠ .BindingRequest →
      handle_request d addr = some (.error (.text ("Not a binding request")))) ∧
    (∀ r p, StunRequest.parse d = .ok r → r.msg_type = .BindingRequest →
      addr = .v6 p →
      handle_request d addr = some (.error (.text ("IPv6 not supported")))) ∧
    (∀ r a4, StunRequest.parse d = .ok r → r.msg_type = .BindingRequest →
      addr = .v4 a4 → handle_request d addr = some (.ok 32)) := by
  cases hp : StunRequest.parse d with
  | error e0 =>
    refine ⟨?_, ?_, ?_, ?_⟩
    · intro e he
      injection he with h1
      rw [← h1]
      simp [handle_request, hp]
    · intro r hr _
      exact Except.noConfusion hr
    · intro r p hr _ _
      exact Except.noConfusion hr
    · intro r a4 hr _ _
      exact Except.noConfusion hr
  | ok r0 =>
    refine ⟨?_, ?_, ?_, ?_⟩
    · intro e he
      exact Except.noConfusion he
    · intro r hr hne
      injection hr with h1
      have hb : r0.is_binding_request = false := by
        rw [StunRequest.is_binding_request, h1]
        simp only [decide_eq_false_iff_not]
        exact hne
      simp [handle_request, hp, hb]
    · intro r p hr heq hv6
      injection hr with h1
      have hb : r0.is_binding_request = true := by
        rw [StunRequest.is_binding_request, h1]
        simp [heq]
      subst hv6
      simp [handle_request, hp, hb]
    · intro r a4 hr heq hv4
      injection hr with h1
      have hb : r0.is_binding_request = true := by
        rw [StunRequest.is_binding_request, h1]
        simp [heq]
      subst hv4
      have hlen12 : r0.transaction_id.length = 12 :=
        parse_ok_transaction_length d r0 hp
      simp [handle_request, hp, hb, StunResponse.binding_response, hlen12,
        BINDING_RESPONSE_SIZE]

/-- Counterexample for C5 as stated: a well-formed datagram of type
BindingResponse from an IPv4 client is rejected with the string error
of the source, which is not the StunError value UnsupportedMessageType
named by the claim. -/
theorem handle_request_claim_counterexample :
    handle_request
        ([0x01, 0x01, 0x00, 0x00, 0x21, 0x12, 0xA4, 0x42,
          0, 0, 0, 0, 0, 0, 0, 0, 0, 0, 0, 0])
        (SocketAddr.v4 ⟨⟨127, 0, 0, 1⟩, 8080⟩)
      = some (.error (.text ("Not a binding request"))) ∧
    HandleError.text ("Not a binding request")
      ≠ HandleError.stun (.UnsupportedMessageType .BindingResponse) := by
  exact ⟨by decide, by decide⟩

/-- Witness for C5: a valid BindingRequest from IPv4 yields Ok 32. -/
theorem handle_request_rejections_witness :
    handle_request
        ([0x00, 0x01, 0x00, 0x00, 0x21, 0x12, 0xA4, 0x42,
          1, 2, 3, 4, 5, 6, 7, 8, 9, 10, 11, 12])
        (SocketAddr.v4 ⟨⟨192, 168, 1, 100⟩, 12345⟩)
      = some (.ok 32) :=
  (handle_request_rejections
      ([0x00, 0x01, 0x00, 0x00, 0x21, 0x12, 0xA4, 0x42,
        1, 2, 3, 4, 5, 6, 7, 8, 9, 10, 11, 12])
      (SocketAddr.v4 ⟨⟨192, 168, 1, 100⟩, 12345⟩)).2.2.2
    ⟨.BindingRequest, [1, 2, 3, 4, 5, 6, 7, 8, 9, 10, 11, 12]⟩
    ⟨⟨192, 168, 1, 100⟩, 12345⟩ (by decide) rfl rfl

/-- C10: binding_response panics exactly when the transaction id is not
12 bytes; a successful parse always yields a 12-byte transaction id, so
the panic is unreachable from handle_request on any input. -/
theorem binding_response_needs_twelve :
    (∀ xid : List Nat, ∀ a : SocketAddrV4,
      StunResponse.binding_response xid a = none ↔ xid.length ≠ 12) ∧
    (∀ d : List Nat, ∀ r : StunRequest,
      StunRequest.parse d = .ok r → r.transaction_id.length = 12) ∧
    (∀ d : List Nat, ∀ addr : SocketAddr, handle_request d addr ≠ none) := by
  refine ⟨?_, parse_ok_transaction_length, ?_⟩
  · intro xid a
    rw [StunResponse.binding_response]
    by_cases h : xid.length = 12
    · simp [h]
    · simp [h]
  · intro d addr
    cases hp : StunRequest.parse d with
    | error e0 => simp [handle_request, hp]
    | ok r0 =>
      cases hb : r0.is_binding_request with
      | false => simp [handle_request, hp, hb]
      | true =>
        cases addr with
        | v6 p => simp [handle_request, hp, hb]
        | v4 a4 =>
          have hl : r0.transaction_id.length = 12 :=
            parse_ok_transaction_length d r0 hp
          simp [handle_request, hp, hb, StunResponse.binding_response, hl]

/-- Witness for C10: the panic branch at an empty transaction id, and
the live branch of handle_request at an empty datagram. -/
theorem binding_response_needs_twelve_witness :
    StunResponse.binding_response [] ⟨⟨0, 0, 0, 0⟩, 0⟩ = none ∧
    handle_request [] (SocketAddr.v4 ⟨⟨0, 0, 0, 0⟩, 0⟩) ≠ none :=
  ⟨(binding_response_needs_twelve.1 [] ⟨⟨0, 0, 0, 0⟩, 0⟩).mpr (by decide),
   binding_response_needs_twelve.2.2 [] (SocketAddr.v4 ⟨⟨0, 0, 0, 0⟩, 0⟩)⟩

theorem inv_init : Inv ActorState.init := by
  refine ⟨?_, ?_, ?_⟩
  · intro p code hp
    exact Option.noConfusion hp
  · intro code room hr
    exact Option.noConfusion hr
  · intro code room hr
    exact Option.noConfusion hr

theorem inv_execTrace (cmds : List RoomCommand) :
    ∀ s : ActorState, Inv s → TraceFresh s cmds → Inv (execTrace s cmds) := by
  induction cmds with
  | nil =>
    intro s hs _
    exact hs
  | cons c cs ih =>
    intro s hs hfr
    exact ih (step s c).state (step_preserves_inv s c hs hfr.1) hfr.2

/-- C4: after any finite sequence of commands from the empty tables,
processed with fresh generated codes and ids, the two tables are
mutually consistent and no empty room exists. -/
theorem actor_invariants_hold (cmds : List RoomCommand)
    (h : TraceFresh ActorState.init cmds) : Inv (execTrace ActorState.init cmds) :=
  inv_execTrace cmds ActorState.init inv_init h

/-- Witness for C4 on the trace create-then-leave. -/
theorem actor_invariants_hold_witness :
    TraceFresh ActorState.init
        [.Create (SocketAddr.v4 ⟨⟨127, 0, 0, 1⟩, 4000⟩) ⟨[97, 98, 99, 100, 101, 102, 103, 104], 8⟩ 1,
         .Leave 1]
      ∧ Inv (execTrace ActorState.init
        [.Create (SocketAddr.v4 ⟨⟨127, 0, 0, 1⟩, 4000⟩) ⟨[97, 98, 99, 100, 101, 102, 103, 104], 8⟩ 1,
         .Leave 1]) :=
  have h : TraceFresh ActorState.init
      [.Create (SocketAddr.v4 ⟨⟨127, 0, 0, 1⟩, 4000⟩) ⟨[97, 98, 99, 100, 101, 102, 103, 104], 8⟩ 1,
       .Leave 1] := ⟨⟨rfl, rfl⟩, trivial, trivial⟩
  ⟨h, actor_invariants_hold _ h⟩

/-- C3: a Join into an existing room replies Ok with the fresh peer id
and exactly the pre-existing members, sends the PeerJoined notification
to exactly those members, never to the joiner, and only then inserts the
joiner. -/
theorem join_existing_room (s : ActorState) (code : RoomCode) (addr : SocketAddr)
    (pid : PeerId) (room : Room)
    (hroom : lookupKey code s.rooms = some room)
    (hfresh : ∀ q ∈ room.peers, q.1 ≠ pid ∧ q.2.info.id ≠ pid) :
    (step s (.Join code addr pid)).reply
        = some (.joined (.ok (pid, room.peers.map (fun p => p.2.info)))) ∧
    (∀ info ∈ room.peers.map (fun p => p.2.info), info.id ≠ pid) ∧
    (step s (.Join code addr pid)).sends
        = room.peers.map (fun p => (p.1, .peerJoined ⟨pid, some addr⟩)) ∧
    (∀ t ∈ (step s (.Join code addr pid)).sends, t.1 ≠ pid) ∧
    (step s (.Join code addr pid)).state.rooms
        = insertKey code ⟨insertKey pid ⟨⟨pid, some addr⟩⟩ room.peers⟩ s.rooms ∧
    (step s (.Join code addr pid)).state.peer_rooms
        = insertKey pid code s.peer_rooms := by
  rw [step_join_found addr pid hroom]
  refine ⟨rfl, ?_, rfl, ?_, rfl, rfl⟩
  · intro info hinfo
    rw [List.mem_map] at hinfo
    obtain ⟨q, hq, he⟩ := hinfo
    rw [← he]
    exact (hfresh q hq).2
  · intro t ht
    rw [List.mem_map] at ht
    obtain ⟨q, hq, he⟩ := ht
    rw [← he]
    exact (hfresh q hq).1

/-- Witness for C3: joining a one-member room. -/
theorem join_existing_room_witness :
    (step (⟨[(⟨[99, 111, 100, 101, 97, 98, 99, 100], 8⟩,
              ⟨[(1, ⟨⟨1, none⟩⟩)]⟩)],
            [(1, ⟨[99, 111, 100, 101, 97, 98, 99, 100], 8⟩)]⟩ : ActorState)
        (.Join ⟨[99, 111, 100, 101, 97, 98, 99, 100], 8⟩
          (SocketAddr.v4 ⟨⟨10, 0, 0, 2⟩, 5000⟩) 2)).reply
      = some (.joined (.ok (2, [⟨1, none⟩]))) :=
  (join_existing_room _ ⟨[99, 111, 100, 101, 97, 98, 99, 100], 8⟩
    (SocketAddr.v4 ⟨⟨10, 0, 0, 2⟩, 5000⟩) 2 ⟨[(1, ⟨⟨1, none⟩⟩)]⟩
    (by decide) (by decide)).1

/-- C6: a Join for an unknown code replies RoomNotFound, leaves both
tables unchanged and sends nothing, and the connection handler turns
that reply into a message whose serde type tag is error and whose text
is the words room not found followed by the rendering of the code —
the first len bytes when they are valid UTF-8, the empty string
otherwise, exactly as as_str renders. -/
theorem join_room_not_found (s : ActorState) (code : RoomCode) (addr : SocketAddr)
    (pid : PeerId) (h : lookupKey code s.rooms = none) :
    (step s (.Join code addr pid)).state = s ∧
    (step s (.Join code addr pid)).sends = [] ∧
    (step s (.Join code addr pid)).reply
      = some (.joined (.error (.RoomNotFound code))) ∧
    handleJoinReply code (.error (.RoomNotFound code))
      = .error ((SignalingError.RoomNotFound code).message) ∧
    (ServerMessage.error ((SignalingError.RoomNotFound code).message)).typeTag
      = strBytes ("error") ∧
    (SignalingError.RoomNotFound code).message
      = strBytes ("room not found: ") ++ code.render ∧
    (isValidUtf8 (code.bytes.take code.len) = true →
      (SignalingError.RoomNotFound code).message
        = strBytes ("room not found: ") ++ code.bytes.take code.len) ∧
    (isValidUtf8 (code.bytes.take code.len) = false →
      (SignalingError.RoomNotFound code).message
        = strBytes ("room not found: ")) := by
  rw [step_join_notfound addr pid h]
  refine ⟨rfl, rfl, rfl, rfl, rfl, rfl, ?_, ?_⟩
  · intro hv
    rw [SignalingError.message, RoomCode.render, if_pos hv]
  · intro hv
    rw [SignalingError.message, RoomCode.render,
      if_neg (by rw [hv]; exact Bool.false_ne_true), List.append_nil]

/-- Witness for C6: joining the empty table with the code zzzzzzzz,
whose rendering is its own eight ASCII bytes. -/
theorem join_room_not_found_witness :
    (step ActorState.init
        (.Join ⟨[122, 122, 122, 122, 122, 122, 122, 122], 8⟩
          (SocketAddr.v4 ⟨⟨10, 0, 0, 3⟩, 6000⟩) 7)).reply
      = some (.joined (.error
          (.RoomNotFound ⟨[122, 122, 122, 122, 122, 122, 122, 122], 8⟩))) ∧
    (SignalingError.RoomNotFound ⟨[122, 122, 122, 122, 122, 122, 122, 122], 8⟩).message
      = strBytes ("room not found: ")
        ++ ([122, 122, 122, 122, 122, 122, 122, 122] : List Nat).take 8 :=
  ⟨(join_room_not_found ActorState.init ⟨[122, 122, 122, 122, 122, 122, 122, 122], 8⟩
      (SocketAddr.v4 ⟨⟨10, 0, 0, 3⟩, 6000⟩) 7 rfl).2.2.1,
   (join_room_not_found ActorState.init ⟨[122, 122, 122, 122, 122, 122, 122, 122], 8⟩
      (SocketAddr.v4 ⟨⟨10, 0, 0, 3⟩, 6000⟩) 7 rfl).2.2.2.2.2.2.1 (by decide)⟩

/-- C8: a Leave for a peer id absent from peer_rooms is a no-op and
sends nothing, so the second of two successive Leaves for the same peer
id leaves the state of the first unchanged, replies nothing and sends
nothing. -/
theorem leave_twice_noop (s : ActorState) (pid : PeerId) :
    (lookupKey pid s.peer_rooms = none → step s (.Leave pid) = ⟨s, none, []⟩) ∧
    (step (step s (.Leave pid)).state (.Leave pid)).state
      = (step s (.Leave pid)).state ∧
    (step (step s (.Leave pid)).state (.Leave pid)).sends = [] ∧
    (step (step s (.Leave pid)).state (.Leave pid)).reply = none ∧
    (step s (.Leave pid)).sends = [] ∧
    (step s (.Leave pid)).reply = none := by
  have hgone : lookupKey pid (step s (.Leave pid)).state.peer_rooms = none := by
    cases hpr : lookupKey pid s.peer_rooms with
    | none =>
      rw [step_leave_absent hpr]
      exact hpr
    | some code =>
      cases hrm : lookupKey code s.rooms with
      | none =>
        rw [step_leave_no_room hpr hrm]
        exact lookupKey_erase_self _ _
      | some room =>
        by_cases hemp : eraseKey pid room.peers = []
        · rw [step_leave_empties hpr hrm hemp]
          exact lookupKey_erase_self _ _
        · rw [step_leave_keeps hpr hrm hemp]
          exact lookupKey_erase_self _ _
  have h2 := step_leave_absent hgone
  have hfirst : (step s (.Leave pid)).sends = [] ∧ (step s (.Leave pid)).reply = none := by
    cases hpr : lookupKey pid s.peer_rooms with
    | none =>
      rw [step_leave_absent hpr]
      exact ⟨rfl, rfl⟩
    | some code =>
      cases hrm : lookupKey code s.rooms with
      | none =>
        rw [step_leave_no_room hpr hrm]
        exact ⟨rfl, rfl⟩
      | some room =>
        by_cases hemp : eraseKey pid room.peers = []
        · rw [step_leave_empties hpr hrm hemp]
          exact ⟨rfl, rfl⟩
        · rw [step_leave_keeps hpr hrm hemp]
          exact ⟨rfl, rfl⟩
  refine ⟨fun h => step_leave_absent h, ?_, ?_, ?_, hfirst.1, hfirst.2⟩
  · rw [h2]
  · rw [h2]
  · rw [h2]

/-- Witness for C8: leaving with an absent peer id on the empty tables. -/
theorem leave_twice_noop_witness :
    step ActorState.init (.Leave 5) = ⟨ActorState.init, none, []⟩ :=
  (leave_twice_noop ActorState.init 5).1 rfl

/-- C9 (amended): the RoomCode coercion truncates to at most 8 bytes,
stores the number of meaningful bytes, zero-pads the internal buffer,
and renders as the first min(length, 8) source bytes when they form
valid UTF-8 and as the empty string when the truncation split a
multi-byte character — never as a fixed 8 bytes. -/
theorem roomcode_coercion (src : List Nat) :
    (RoomCode.fromBytes src).len = min src.length 8 ∧
    (RoomCode.fromBytes src).bytes
      = src.take (min src.length 8) ++ List.replicate (8 - min src.length 8) 0 ∧
    (isValidUtf8 (src.take 8) = true →
      (RoomCode.fromBytes src).render = src.take 8) ∧
    (isValidUtf8 (src.take 8) = false →
      (RoomCode.fromBytes src).render = []) ∧
    RoomCode.fromBytes (src.take 8) = RoomCode.fromBytes src := by
  have htk : (RoomCode.fromBytes src).bytes.take (RoomCode.fromBytes src).len
      = src.take 8 := by
    show ((src.take (min src.length 8) ++ List.replicate (8 - min src.length 8) 0).take
        (min src.length 8)) = src.take 8
    rw [take_len_append _ (by rw [List.length_take]; omega)]
    rw [List.take_eq_take]
    omega
  refine ⟨rfl, rfl, ?_, ?_, ?_⟩
  · intro hv
    rw [RoomCode.render, htk, if_pos hv]
  · intro hv
    rw [RoomCode.render, htk, if_neg (by rw [hv]; exact Bool.false_ne_true)]
  · rw [RoomCode.fromBytes, RoomCode.fromBytes]
    have hl : (src.take 8).length = min src.length 8 := by
      rw [List.length_take]
      omega
    simp only [ROOM_CODE_LEN, hl]
    have hmin : min (min src.length 8) 8 = min src.length 8 := by omega
    rw [hmin, List.take_take]
    have hmin2 : min (min src.length 8) 8 = min src.length 8 := by omega
    rw [hmin2]

/-- Witness for C9: an ASCII code renders as its own bytes, while a
code whose 8-byte truncation splits a three-byte character renders as
the empty string. -/
theorem roomcode_coercion_witness :
    (RoomCode.fromBytes ([97, 98, 99])).render = ([97, 98, 99] : List Nat).take 8 ∧
    (RoomCode.fromBytes ([97, 97, 97, 97, 97, 97, 97, 226, 130, 172])).render = [] :=
  ⟨(roomcode_coercion ([97, 98, 99])).2.2.1 (by decide),
   (roomcode_coercion ([97, 97, 97, 97, 97, 97, 97, 226, 130, 172])).2.2.2.1 (by decide)⟩

/-- Counterexample for C9 as stated: the three-byte code abc is stored
with length 3, renders as 3 bytes rather than 8, and is not equal to
the zero-padded full-width code. -/
theorem roomcode_claim_counterexample :
    (RoomCode.fromBytes ([0x61, 0x62, 0x63])).len = 3 ∧
    (RoomCode.fromBytes ([0x61, 0x62, 0x63])).render = [0x61, 0x62, 0x63] ∧
    (RoomCode.fromBytes ([0x61, 0x62, 0x63])).render.length ≠ 8 ∧
    RoomCode.fromBytes ([0x61, 0x62, 0x63])
      ≠ ⟨[0x61, 0x62, 0x63, 0, 0, 0, 0, 0], 8⟩ := by
  exact ⟨by decide, by decide, by decide, by decide⟩

end Carapace
